import Mathlib

/-!
Shallow embedding of the client-side session / paginated-list data flow of the
`fullstack-users-auth` repository (React/TypeScript frontend), together with
theorems settling the specification's claims about it.

Embedded source files:
* `src/frontend/src/features/users/components/Pagination.tsx` (`getPageNumbers`,
  the clickable pagination controls);
* `src/frontend/src/shared/api/apiClient.ts` (the response interceptor);
* `src/frontend/src/features/auth/store/authStore.ts` (`setAuth`, `logout`,
  `updateUser`, persistence `partialize` / `onRehydrateStorage`);
* `src/frontend/src/features/users/api/userApi.ts` (`getUsers` query building);
* the `UsersList` component (`handlePageChange`, `handleAgeFilterChange`);
* `src/frontend/src/features/users/api/userHooks.ts` (`useGetUsers` query key).

JavaScript numbers are modelled as `Int` (every value involved is an integer),
JavaScript truthiness of numbers and strings is modelled explicitly, and
`localStorage` is modelled as a record of the keys the code touches.
-/

namespace FullstackUsersAuth

/-! ## Definitions: pagination window (`Pagination.tsx`, `getPageNumbers`) -/

/-- An entry of the page-number list: either a page number or the `'...'`
ellipsis marker pushed by `getPageNumbers`. -/
inductive PageEntry where
  | num (n : Int)
  | ellipsis
  deriving DecidableEq, Repr

/-- The integers from `lo` to `hi` inclusive, in order; empty when `hi < lo`.
Models the JavaScript loops `for (let i = lo; i <= hi; i++) pages.push(i)`. -/
def rangeIncl (lo hi : Int) : List Int :=
  (List.range (hi - lo + 1).toNat).map (fun k : Nat => lo + (k : Int))

/-- Function `getPageNumbers` from `Pagination.tsx` (lines 53-87): the page-number
window with smart ellipsis, a pure function of `(page, totalPages)`,
with `maxVisible = 5`. -/
def getPageNumbers (page totalPages : Int) : List PageEntry :=
  if totalPages ≤ 5 then
    (rangeIncl 1 totalPages).map PageEntry.num
  else if page ≤ 3 then
    (rangeIncl 1 4).map PageEntry.num ++ [PageEntry.ellipsis, PageEntry.num totalPages]
  else if page ≥ totalPages - 2 then
    [PageEntry.num 1, PageEntry.ellipsis] ++
      (rangeIncl (totalPages - 3) totalPages).map PageEntry.num
  else
    [PageEntry.num 1, PageEntry.ellipsis, PageEntry.num (page - 1), PageEntry.num page,
      PageEntry.num (page + 1), PageEntry.ellipsis, PageEntry.num totalPages]

/-- Structure `PaginationMeta` from `user.types.ts`: server-supplied pagination metadata
consumed by the `Pagination` component. -/
structure PaginationMeta where
  page : Int
  limit : Int
  total : Int
  totalPages : Int
  hasNext : Bool
  hasPrev : Bool
  deriving DecidableEq, Repr

/-- The numeric value of a window entry, `none` for the ellipsis marker. -/
def numValue : PageEntry → Option Int
  | PageEntry.num n => some n
  | PageEntry.ellipsis => none

/-- The page values the `Pagination` component can pass to `onPageChange`
(`Pagination.tsx` lines 94-139): `page - 1` from the Previous button (rendered
disabled unless `hasPrev`), each numeric window entry (an ellipsis entry is
rendered as a plain `<span>` with no click handler), and `page + 1` from the
Next button (disabled unless `hasNext`). -/
def clickablePages (m : PaginationMeta) : List Int :=
  (if m.hasPrev then [m.page - 1] else []) ++
    (getPageNumbers m.page m.totalPages).filterMap numValue ++
    (if m.hasNext then [m.page + 1] else [])

/-! ## Definitions: auth store (`authStore.ts`) -/

/-- Structure `AuthUser` from `auth.types.ts`. -/
structure AuthUser where
  id : String
  name : String
  email : String
  age : Int
  createdAt : String
  updatedAt : String
  deriving DecidableEq, Repr

/-- Shape `Partial<AuthUser>`: each field present or absent. -/
structure AuthUserPatch where
  id : Option String := none
  name : Option String := none
  email : Option String := none
  age : Option Int := none
  createdAt : Option String := none
  updatedAt : Option String := none
  deriving DecidableEq, Repr

/-- The JavaScript spread `{ ...user, ...updatedFields }`: a present patch
field overrides the existing one. -/
def spreadPatch (u : AuthUser) (p : AuthUserPatch) : AuthUser :=
  { id := p.id.getD u.id, name := p.name.getD u.name, email := p.email.getD u.email,
    age := p.age.getD u.age, createdAt := p.createdAt.getD u.createdAt,
    updatedAt := p.updatedAt.getD u.updatedAt }

/-- The auth store state together with the `localStorage.authToken` side
channel the store writes (`authStore.ts` lines 78 and 100). -/
structure ClientAuthState where
  user : Option AuthUser
  token : Option String
  isAuthenticated : Bool
  lsAuthToken : Option String
  deriving DecidableEq, Repr

/-- Initial store state (`authStore.ts` lines 58-60) with no persisted
side-channel token. -/
def initialAuthState : ClientAuthState :=
  { user := none, token := none, isAuthenticated := false, lsAuthToken := none }

/-- Action `setAuth` (`authStore.ts` lines 76-86): writes `localStorage.authToken`,
then sets `user`, `token` and `isAuthenticated := true`. -/
def setAuth (s : ClientAuthState) (user : AuthUser) (token : String) : ClientAuthState :=
  { s with
    lsAuthToken := some token, user := some user, token := some token,
    isAuthenticated := true }

/-- Action `logout` (`authStore.ts` lines 98-108): removes `localStorage.authToken`
and resets the state to its initial values. -/
def logout (s : ClientAuthState) : ClientAuthState :=
  { s with lsAuthToken := none, user := none, token := none, isAuthenticated := false }

/-- Action `updateUser` (`authStore.ts` lines 123-129): merges the patch into the
existing user, or keeps `null` when no user is present. -/
def updateUser (s : ClientAuthState) (p : AuthUserPatch) : ClientAuthState :=
  { s with user := match s.user with
      | some u => some (spreadPatch u p)
      | none => none }

/-- What `partialize` persists (`authStore.ts` lines 149-153): only `user` and
`token`, never `isAuthenticated`. -/
structure PersistedAuth where
  user : Option AuthUser
  token : Option String
  deriving DecidableEq, Repr

/-- Function `partialize` (`authStore.ts` lines 149-153). -/
def partialize (s : ClientAuthState) : PersistedAuth :=
  { user := s.user, token := s.token }

/-- JavaScript truthiness of an optional string: `!!x` is `false` for
`undefined`/`null` and for the empty string. -/
def jsTruthyOptString : Option String → Bool
  | none => false
  | some s => s ≠ ""

/-- JavaScript truthiness of an optional number (`0` is falsy). -/
def jsTruthyOptInt : Option Int → Bool
  | none => false
  | some n => n ≠ 0

/-- Rehydration: the persist middleware restores the persisted `user` and
`token`, then `onRehydrateStorage` (`authStore.ts` lines 170-175) sets
`isAuthenticated := !!state.token`. The `localStorage.authToken` side channel
is untouched by rehydration. -/
def rehydrate (s : ClientAuthState) (p : PersistedAuth) : ClientAuthState :=
  { s with
    user := p.user, token := p.token,
    isAuthenticated := jsTruthyOptString p.token }

/-- The store states reachable from the initial state through the store's
operations and rehydration, with `setAuth` only ever invoked with a non-empty
token (the amendment forced by the `setAuth _ ""` counterexample). -/
inductive ReachableNE : ClientAuthState → Prop where
  | init : ReachableNE initialAuthState
  | set {s : ClientAuthState} (u : AuthUser) {t : String} (ht : t ≠ "") :
      ReachableNE s → ReachableNE (setAuth s u t)
  | out {s : ClientAuthState} : ReachableNE s → ReachableNE (logout s)
  | patch {s : ClientAuthState} (p : AuthUserPatch) :
      ReachableNE s → ReachableNE (updateUser s p)
  | rehyd {s : ClientAuthState} (p : PersistedAuth) :
      ReachableNE s → ReachableNE (rehydrate s p)

/-- A sample user for concrete witnesses and counterexamples. -/
def sampleUser : AuthUser :=
  { id := "u1", name := "Alice", email := "alice@example.com", age := 30,
    createdAt := "2024-01-01", updatedAt := "2024-01-01" }

/-! ## Definitions: `UsersList` component state and handlers -/

/-- The local state of the `UsersList` component: `page` (via `useState(1)`)
and the optional `ageFilter`. -/
structure UsersListState where
  page : Int
  ageFilter : Option Int
  deriving DecidableEq, Repr

/-- JavaScript `parseInt` restricted to the decimal strings the age dropdown
produces. -/
def jsParseInt (s : String) : Int := (s.toInt?).getD 0

/-- Handler `handlePageChange` from the `UsersList` component (lines 92-95): sets
`page := newPage` unconditionally (the scroll-to-top call carries no state). -/
def handlePageChange (s : UsersListState) (newPage : Int) : UsersListState :=
  { s with page := newPage }

/-- Handler `handleAgeFilterChange` from the `UsersList` component (lines 101-105):
`setAgeFilter(value ? parseInt(value) : undefined)` then `setPage(1)`. -/
def handleAgeFilterChange (s : UsersListState) (value : String) : UsersListState :=
  { s with ageFilter := if value ≠ "" then some (jsParseInt value) else none, page := 1 }

/-! ## Definitions: `getUsers` query building (`userApi.ts`) -/

/-- Structure `UserQueryParams` from `user.types.ts`: every field optional. -/
structure UserQueryParams where
  page : Option Int := none
  limit : Option Int := none
  age : Option Int := none
  sortBy : Option String := none
  sortOrder : Option String := none
  search : Option String := none
  deriving DecidableEq, Repr

/-- Step `if (params.k) queryParams.append('k', params.k.toString())` for a numeric
field: appends the pair only when the field is present and truthy (non-zero). -/
def appendNumParam (key : String) : Option Int → List (String × String)
  | some n => if n ≠ 0 then [(key, toString n)] else []
  | none => []

/-- Step `if (params.k) queryParams.append('k', params.k)` for a string field:
appends the pair only when the field is present and truthy (non-empty). -/
def appendStrParam (key : String) : Option String → List (String × String)
  | some s => if s ≠ "" then [(key, s)] else []
  | none => []

/-- The key/value pairs accumulated by `getUsers` (`userApi.ts` lines 26-33),
in source order. -/
def queryPairs (p : UserQueryParams) : List (String × String) :=
  appendNumParam "page" p.page ++ appendNumParam "limit" p.limit ++
    appendNumParam "age" p.age ++ appendStrParam "sortBy" p.sortBy ++
    appendStrParam "sortOrder" p.sortOrder ++ appendStrParam "search" p.search

/-- Serialization `URLSearchParams.toString()` over the accumulated pairs (the values the
code appends need no URL escaping). -/
def serializeQuery : List (String × String) → String
  | [] => ""
  | [(k, v)] => k ++ "=" ++ v
  | (k, v) :: kv :: rest => k ++ "=" ++ v ++ "&" ++ serializeQuery (kv :: rest)

/-- The request URL built by `getUsers` (`userApi.ts` lines 35-36): the query
string is attached only when non-empty. -/
def getUsersUrl (p : UserQueryParams) : String :=
  let queryString := serializeQuery (queryPairs p)
  "/api/users" ++ (if queryString ≠ "" then "?" ++ queryString else "")

/-- The query the `UsersList` component passes to `useGetUsers` (lines 80-86):
`{ page, limit: 9, age: ageFilter, sortBy: 'createdAt', sortOrder: 'desc' }`. -/
def usersListQuery (s : UsersListState) : UserQueryParams :=
  { page := some s.page, limit := some 9, age := s.ageFilter,
    sortBy := some "createdAt", sortOrder := some "desc", search := none }

/-! ## Definitions: response interceptor (`apiClient.ts`) -/

/-- The `localStorage` keys the response interceptor touches. -/
structure InterceptorStorage where
  authToken : Option String
  authUser : Option String
  deriving DecidableEq, Repr

/-- Test whether the first character list starts with the second. -/
def charsStartWith : List Char → List Char → Bool
  | _, [] => true
  | [], _ :: _ => false
  | c :: cs, p :: ps => c == p && charsStartWith cs ps

/-- Occurrence of `pat` anywhere in the character list. -/
def charsContain (pat : List Char) : List Char → Bool
  | [] => pat.isEmpty
  | c :: cs => charsStartWith (c :: cs) pat || charsContain pat cs

/-- JavaScript `s.includes(pat)`. -/
def strIncludes (s pat : String) : Bool := charsContain pat.toList s.toList

/-- Condition `error.config?.url?.includes('/auth/login') ||
error.config?.url?.includes('/auth/register')` (`apiClient.ts` lines 65-66);
an absent URL is falsy, hence not an auth endpoint. -/
def isAuthEndpointUrl : Option String → Bool
  | some u => strIncludes u "/auth/login" || strIncludes u "/auth/register"
  | none => false

/-- The parts of an axios error the interceptor reads: `error.response?.status`,
`error.config?.url`, `error.response?.data?.message`, `error.message`,
`error.response?.data?.errors`. -/
structure AxiosErrorInput where
  status : Option Int
  url : Option String
  responseMessage : Option String
  message : String
  responseErrors : Option (List String)
  deriving DecidableEq, Repr

/-- JavaScript `a || b` for strings: `b` when `a` is falsy (empty). -/
def jsOrString (a b : String) : String := if a = "" then b else a

/-- The normalized rejection shape built at `apiClient.ts` lines 80-84. -/
structure NormalizedError where
  message : String
  status : Option Int
  errors : Option (List String)
  deriving DecidableEq, Repr

/-- The observable outcome of the response interceptor's error branch:
resulting `localStorage` keys, the redirect (if any), and the rejection
passed to the caller. -/
structure InterceptOutcome where
  storage : InterceptorStorage
  redirect : Option String
  rejection : NormalizedError
  deriving DecidableEq, Repr

/-- The response interceptor's error handler (`apiClient.ts` lines 55-85):
builds the error message, clears `authToken`/`authUser` and redirects to
`/login` on a 401 that is not a login/register attempt, and always rejects
with the normalized error. -/
def onResponseError (st : InterceptorStorage) (e : AxiosErrorInput) : InterceptOutcome :=
  let errorMessage :=
    jsOrString (e.responseMessage.getD "")
      (jsOrString e.message "An unexpected error occurred")
  let step : InterceptorStorage × Option String :=
    if e.status = some 401 then
      if isAuthEndpointUrl e.url then (st, none)
      else ({ st with authToken := none, authUser := none }, some "/login")
    else (st, none)
  { storage := step.1, redirect := step.2,
    rejection := { message := errorMessage, status := e.status, errors := e.responseErrors } }

/-! ## Definitions: query cache keyed by originating params (`useGetUsers`) -/

/-- The query key `['users', params]` used by `useGetUsers`
(`userHooks.ts` lines 174-186). -/
def usersQueryKey (params : UserQueryParams) : String × UserQueryParams :=
  ("users", params)

/-- A cache slot assignment: query key to the list of user ids last resolved
for it. -/
abbrev UsersCache : Type := List ((String × UserQueryParams) × List String)

/-- Update the slot of key `k` to `r`, leaving every other slot unchanged
(appending a fresh slot when `k` has none). -/
def cacheUpdate (c : UsersCache) (k : String × UserQueryParams) (r : List String) :
    UsersCache :=
  match c with
  | [] => [(k, r)]
  | kv :: rest => if kv.1 = k then (k, r) :: rest else kv :: cacheUpdate rest k r

/-- Look up the slot of key `k`. -/
def cacheLookup (c : UsersCache) (k : String × UserQueryParams) : Option (List String) :=
  match c with
  | [] => none
  | kv :: rest => if kv.1 = k then some kv.2 else cacheLookup rest k

/-- Modelled from the spec: the stale-response guard of the client query cache
(the `@tanstack/react-query` cache behind `useQuery`, which is not part of
`src/`) — "implementations must key in-flight requests by their originating
query parameters"; a resolving response is applied only to the slot of its own
originating key. -/
def applyResponse (c : UsersCache) (params : UserQueryParams) (result : List String) :
    UsersCache :=
  cacheUpdate c (usersQueryKey params) result

/-- Modelled from the spec: the visible list state is the cache entry of the
current query parameters ("discard responses that do not match the current
query state at resolution time"). -/
def visibleUsers (c : UsersCache) (current : UserQueryParams) : Option (List String) :=
  cacheLookup c (usersQueryKey current)

/-- A sample interceptor storage for concrete witnesses. -/
def sampleStorage : InterceptorStorage :=
  { authToken := some "tok", authUser := none }

/-- A sample 401 error from a login attempt, for concrete witnesses. -/
def sampleLoginError : AxiosErrorInput :=
  { status := some 401, url := some "/api/auth/login",
    responseMessage := some "Invalid credentials",
    message := "Request failed with status code 401", responseErrors := none }

/-! ## Theorems: pagination window -/

theorem mem_rangeIncl {lo hi a : Int} : a ∈ rangeIncl lo hi ↔ lo ≤ a ∧ a ≤ hi := by
  constructor
  · intro h
    obtain ⟨k, hk, hv⟩ := List.mem_map.mp h
    have hk' := List.mem_range.mp hk
    omega
  · intro h
    exact List.mem_map.mpr ⟨(a - lo).toNat, List.mem_range.mpr (by omega), by omega⟩

theorem rangeIncl_length (lo hi : Int) : (rangeIncl lo hi).length = (hi - lo + 1).toNat := by
  simp [rangeIncl]

theorem rangeIncl_one_four : rangeIncl 1 4 = [1, 2, 3, 4] := by decide

/-- For any `totalPages`, the tail range `totalPages - 3 .. totalPages`
evaluates to the explicit four-element list. -/
theorem rangeIncl_last_four (tp : Int) :
    rangeIncl (tp - 3) tp = [tp - 3, tp - 2, tp - 1, tp] := by
  have h4 : (tp - (tp - 3) + 1).toNat = 4 := by omega
  unfold rangeIncl
  rw [h4]
  simp [List.range_succ]
  omega

theorem getPageNumbers_small {page totalPages : Int} (h : totalPages ≤ 5) :
    getPageNumbers page totalPages = (rangeIncl 1 totalPages).map PageEntry.num := by
  rw [getPageNumbers, if_pos h]

theorem getPageNumbers_start {page totalPages : Int} (h5 : 5 < totalPages) (h3 : page ≤ 3) :
    getPageNumbers page totalPages =
      [PageEntry.num 1, PageEntry.num 2, PageEntry.num 3, PageEntry.num 4,
        PageEntry.ellipsis, PageEntry.num totalPages] := by
  rw [getPageNumbers, if_neg (by omega), if_pos h3, rangeIncl_one_four]
  rfl

theorem getPageNumbers_end {page totalPages : Int} (h5 : 5 < totalPages) (h3 : 3 < page)
    (hend : totalPages - 2 ≤ page) :
    getPageNumbers page totalPages =
      [PageEntry.num 1, PageEntry.ellipsis, PageEntry.num (totalPages - 3),
        PageEntry.num (totalPages - 2), PageEntry.num (totalPages - 1),
        PageEntry.num totalPages] := by
  rw [getPageNumbers, if_neg (by omega), if_neg (by omega), if_pos (by omega),
    rangeIncl_last_four]
  rfl

theorem getPageNumbers_mid {page totalPages : Int} (h5 : 5 < totalPages) (h3 : 3 < page)
    (hmid : page < totalPages - 2) :
    getPageNumbers page totalPages =
      [PageEntry.num 1, PageEntry.ellipsis, PageEntry.num (page - 1), PageEntry.num page,
        PageEntry.num (page + 1), PageEntry.ellipsis, PageEntry.num totalPages] := by
  rw [getPageNumbers, if_neg (by omega), if_neg (by omega), if_neg (by omega)]

/-- C1: The page-window function is a deterministic pure function of
`(page, totalPages)`: for `totalPages ≤ 5` it returns `[1..totalPages]` with no
ellipsis marker; for `totalPages > 5` and `page ≤ 3` it returns
`[1,2,3,4,…,totalPages]`; otherwise for `page ≥ totalPages-2` it returns
`[1,…,totalPages-3,totalPages-2,totalPages-1,totalPages]`; otherwise it returns
`[1,…,page-1,page,page+1,…,totalPages]`; and the four concrete examples of the
claim hold. -/
theorem getPageNumbers_spec (page totalPages : Int) :
    (totalPages ≤ 5 →
        getPageNumbers page totalPages = (rangeIncl 1 totalPages).map PageEntry.num ∧
        PageEntry.ellipsis ∉ getPageNumbers page totalPages) ∧
    (5 < totalPages → page ≤ 3 →
        getPageNumbers page totalPages =
          [PageEntry.num 1, PageEntry.num 2, PageEntry.num 3, PageEntry.num 4,
            PageEntry.ellipsis, PageEntry.num totalPages]) ∧
    (5 < totalPages → 3 < page → totalPages - 2 ≤ page →
        getPageNumbers page totalPages =
          [PageEntry.num 1, PageEntry.ellipsis, PageEntry.num (totalPages - 3),
            PageEntry.num (totalPages - 2), PageEntry.num (totalPages - 1),
            PageEntry.num totalPages]) ∧
    (5 < totalPages → 3 < page → page < totalPages - 2 →
        getPageNumbers page totalPages =
          [PageEntry.num 1, PageEntry.ellipsis, PageEntry.num (page - 1), PageEntry.num page,
            PageEntry.num (page + 1), PageEntry.ellipsis, PageEntry.num totalPages]) ∧
    getPageNumbers 1 10 =
      [PageEntry.num 1, PageEntry.num 2, PageEntry.num 3, PageEntry.num 4,
        PageEntry.ellipsis, PageEntry.num 10] ∧
    getPageNumbers 5 10 =
      [PageEntry.num 1, PageEntry.ellipsis, PageEntry.num 4, PageEntry.num 5,
        PageEntry.num 6, PageEntry.ellipsis, PageEntry.num 10] ∧
    getPageNumbers 9 10 =
      [PageEntry.num 1, PageEntry.ellipsis, PageEntry.num 7, PageEntry.num 8,
        PageEntry.num 9, PageEntry.num 10] ∧
    getPageNumbers 3 4 = [PageEntry.num 1, PageEntry.num 2, PageEntry.num 3, PageEntry.num 4] := by
  refine ⟨?_, ?_, ?_, ?_, by decide, by decide, by decide, by decide⟩
  · intro h
    refine ⟨getPageNumbers_small h, ?_⟩
    rw [getPageNumbers_small h]
    simp
  · exact fun h5 h3 => getPageNumbers_start h5 h3
  · exact fun h5 h3 hend => getPageNumbers_end h5 h3 hend
  · exact fun h5 h3 hmid => getPageNumbers_mid h5 h3 hmid

/-- Witness for `getPageNumbers_spec` at `page = 5, totalPages = 10`. -/
theorem getPageNumbers_spec_witness :
    getPageNumbers 5 10 =
      [PageEntry.num 1, PageEntry.ellipsis, PageEntry.num 4, PageEntry.num 5,
        PageEntry.num 6, PageEntry.ellipsis, PageEntry.num 10] :=
  ((getPageNumbers_spec 5 10).2.2.2.1 (by decide) (by decide) (by decide))

/-- Every numeric entry of the page window lies between `1` and `totalPages`
(no hypothesis on `page` is needed: the branch conditions already bound the
emitted numbers). -/
theorem num_mem_getPageNumbers_bounds {page totalPages n : Int}
    (hmem : PageEntry.num n ∈ getPageNumbers page totalPages) :
    1 ≤ n ∧ n ≤ totalPages := by
  by_cases hs : totalPages ≤ 5
  · rw [getPageNumbers_small hs] at hmem
    obtain ⟨k, hk, hv⟩ := List.mem_map.mp hmem
    cases hv
    exact mem_rangeIncl.mp hk
  · by_cases h3 : page ≤ 3
    · rw [getPageNumbers_start (by omega) h3] at hmem
      simp only [List.mem_cons, List.not_mem_nil, or_false] at hmem
      rcases hmem with h | h | h | h | h | h <;> first
        | (cases h; omega)
        | exact absurd h (by simp)
    · by_cases hend : totalPages - 2 ≤ page
      · rw [getPageNumbers_end (by omega) (by omega) hend] at hmem
        simp only [List.mem_cons, List.not_mem_nil, or_false] at hmem
        rcases hmem with h | h | h | h | h | h <;> first
          | (cases h; omega)
          | exact absurd h (by simp)
      · rw [getPageNumbers_mid (by omega) (by omega) (by omega)] at hmem
        simp only [List.mem_cons, List.not_mem_nil, or_false] at hmem
        rcases hmem with h | h | h | h | h | h | h <;> first
          | (cases h; omega)
          | exact absurd h (by simp)

/-- C10: for `totalPages ≥ 1` and `1 ≤ page ≤ totalPages`, the page window
contains `1`, `totalPages` and the current page, and has at most 7 entries;
for `totalPages = 0` it is empty. -/
theorem getPageNumbers_window (page totalPages : Int) (h1 : 1 ≤ page)
    (h2 : page ≤ totalPages) :
    PageEntry.num 1 ∈ getPageNumbers page totalPages ∧
    PageEntry.num totalPages ∈ getPageNumbers page totalPages ∧
    PageEntry.num page ∈ getPageNumbers page totalPages ∧
    (getPageNumbers page totalPages).length ≤ 7 ∧
    getPageNumbers page 0 = [] := by
  have hempty : getPageNumbers page 0 = [] := by
    rw [getPageNumbers_small (by omega)]
    unfold rangeIncl
    norm_num
  have main : PageEntry.num 1 ∈ getPageNumbers page totalPages ∧
      PageEntry.num totalPages ∈ getPageNumbers page totalPages ∧
      PageEntry.num page ∈ getPageNumbers page totalPages ∧
      (getPageNumbers page totalPages).length ≤ 7 := ?_
  · exact ⟨main.1, main.2.1, main.2.2.1, main.2.2.2, hempty⟩
  by_cases hs : totalPages ≤ 5
  · rw [getPageNumbers_small hs]
    refine ⟨?_, ?_, ?_, ?_⟩
    · exact List.mem_map.mpr ⟨1, mem_rangeIncl.mpr (by omega), rfl⟩
    · exact List.mem_map.mpr ⟨totalPages, mem_rangeIncl.mpr (by omega), rfl⟩
    · exact List.mem_map.mpr ⟨page, mem_rangeIncl.mpr (by omega), rfl⟩
    · rw [List.length_map, rangeIncl_length]
      omega
  · by_cases h3 : page ≤ 3
    · rw [getPageNumbers_start (by omega) h3]
      refine ⟨by simp, by simp, ?_, by simp⟩
      have : page = 1 ∨ page = 2 ∨ page = 3 := by omega
      rcases this with h | h | h <;> simp [h]
    · by_cases hend : totalPages - 2 ≤ page
      · rw [getPageNumbers_end (by omega) (by omega) hend]
        refine ⟨by simp, by simp, ?_, by simp⟩
        have : page = totalPages - 2 ∨ page = totalPages - 1 ∨ page = totalPages := by omega
        rcases this with h | h | h <;> simp [h]
      · rw [getPageNumbers_mid (by omega) (by omega) (by omega)]
        exact ⟨by simp, by simp, by simp, by simp⟩

/-- Witness for `getPageNumbers_window` at `page = 5, totalPages = 10`. -/
theorem getPageNumbers_window_witness :
    PageEntry.num 1 ∈ getPageNumbers 5 10 ∧
    PageEntry.num 10 ∈ getPageNumbers 5 10 ∧
    PageEntry.num 5 ∈ getPageNumbers 5 10 ∧
    (getPageNumbers 5 10).length ≤ 7 ∧
    getPageNumbers 5 0 = [] :=
  getPageNumbers_window 5 10 (by decide) (by decide)

/-! ## Theorems: auth store -/

/-- C5: after `setAuth(user, token)` the stored user equals the given user,
the stored token equals the given token, `isAuthenticated` is true, and the
synchronously readable `localStorage.authToken` copy equals the token. -/
theorem setAuth_spec (s : ClientAuthState) (u : AuthUser) (t : String) :
    (setAuth s u t).user = some u ∧ (setAuth s u t).token = some t ∧
    (setAuth s u t).isAuthenticated = true ∧ (setAuth s u t).lsAuthToken = some t :=
  ⟨rfl, rfl, rfl, rfl⟩

/-- C6: after `logout` the user, token and side-channel token copy are all
absent and `isAuthenticated` is false, for every prior state; the operation is
idempotent and is a no-op on the already-empty session. -/
theorem logout_spec (s : ClientAuthState) :
    (logout s).user = none ∧ (logout s).token = none ∧
    (logout s).lsAuthToken = none ∧ (logout s).isAuthenticated = false ∧
    logout (logout s) = logout s ∧ logout initialAuthState = initialAuthState :=
  ⟨rfl, rfl, rfl, rfl, rfl, rfl⟩

/-- C3 counterexample: `setAuth` with the empty-string token produces
`isAuthenticated = true` while the stored token is empty, so the claimed
invariant `isAuthorized = (token present and non-empty)` fails. -/
theorem authStore_flag_cex :
    (setAuth initialAuthState sampleUser "").isAuthenticated = true ∧
    (setAuth initialAuthState sampleUser "").token = some "" ∧
    jsTruthyOptString (setAuth initialAuthState sampleUser "").token = false := by
  refine ⟨rfl, rfl, by decide⟩

/-- C3 (amended): for every state reachable through the store's operations and
rehydration with `setAuth` only ever invoked with a non-empty token, the
derived flag equals truthiness of the stored token; and rehydrating a
persisted `{user, token}` always yields `isAuthenticated = !!token`,
independent of the persisted user. -/
theorem authStore_flag_invariant (s : ClientAuthState) (h : ReachableNE s) :
    s.isAuthenticated = jsTruthyOptString s.token ∧
    ∀ (s' : ClientAuthState) (p : PersistedAuth),
      (rehydrate s' p).isAuthenticated = jsTruthyOptString p.token ∧
      (rehydrate s' p).user = p.user := by
  refine ⟨?_, fun s' p => ⟨rfl, rfl⟩⟩
  induction h with
  | init => rfl
  | set u ht hs ih => simp [setAuth, jsTruthyOptString, ht]
  | out hs ih => rfl
  | patch p hs ih => exact ih
  | rehyd p hs ih => rfl

/-- Witness for `authStore_flag_invariant` at the state reached by one
`setAuth` with a non-empty token, also instantiating the rehydration part at a
persisted empty-string token. -/
theorem authStore_flag_invariant_witness :
    (setAuth initialAuthState sampleUser "jwt-token").isAuthenticated =
      jsTruthyOptString (setAuth initialAuthState sampleUser "jwt-token").token ∧
    (rehydrate initialAuthState { user := some sampleUser, token := some "" }).isAuthenticated =
      jsTruthyOptString (some "") := by
  have h := authStore_flag_invariant (setAuth initialAuthState sampleUser "jwt-token")
    (ReachableNE.set sampleUser (by decide) ReachableNE.init)
  exact ⟨h.1, (h.2 initialAuthState { user := some sampleUser, token := some "" }).1⟩

/-! ## Theorems: `UsersList` handlers -/

/-- C8: for every current page value and every filter change (a new age value
or clearing the filter), the handler sets the page state to 1, the query
issued afterwards carries `page = 1`, and the page is never left above 1. -/
theorem handleAgeFilterChange_resets_page (s : UsersListState) (value : String) :
    (handleAgeFilterChange s value).page = 1 ∧
    (usersListQuery (handleAgeFilterChange s value)).page = some 1 ∧
    ¬ 1 < (handleAgeFilterChange s value).page := by
  refine ⟨rfl, rfl, ?_⟩
  show ¬ (1 : Int) < 1
  omega

/-- C4 counterexample: with current page 5, calling the page-change handler
with `0` (which is `< 1`) changes the page state to 0 instead of being a
no-op. -/
theorem handlePageChange_cex :
    (0 : Int) < 1 ∧
    (handlePageChange { page := 5, ageFilter := none } 0).page = 0 ∧
    (handlePageChange { page := 5, ageFilter := none } 0).page ≠
      ({ page := 5, ageFilter := none } : UsersListState).page := by
  refine ⟨by norm_num, rfl, by decide⟩

/-- C4 (amended): `handlePageChange` performs no bounds check — it sets
`page := n` unconditionally for every integer `n` and the re-fetch query then
carries that page; an ellipsis marker carries no numeric value (its entry is
rendered without a click handler), and for consistent pagination metadata
every value the `Pagination` component can pass to `onPageChange` lies between
1 and `totalPages`, so out-of-range values never reach the handler through the
UI. -/
theorem handlePageChange_spec (s : UsersListState) (n : Int) (m : PaginationMeta)
    (h1 : 1 ≤ m.page) (h2 : m.page ≤ m.totalPages)
    (hprev : m.hasPrev = true → 1 < m.page)
    (hnext : m.hasNext = true → m.page < m.totalPages) :
    (handlePageChange s n).page = n ∧
    (usersListQuery (handlePageChange s n)).page = some n ∧
    numValue PageEntry.ellipsis = none ∧
    ∀ k ∈ clickablePages m, 1 ≤ k ∧ k ≤ m.totalPages := by
  refine ⟨rfl, rfl, rfl, fun k hk => ?_⟩
  unfold clickablePages at hk
  rcases List.mem_append.mp hk with hk' | hnxt
  · rcases List.mem_append.mp hk' with hp | hw
    · by_cases hb : m.hasPrev = true
      · rw [if_pos hb] at hp
        have : k = m.page - 1 := by simpa using hp
        have := hprev hb
        omega
      · rw [if_neg hb] at hp
        exact absurd hp (List.not_mem_nil k)
    · obtain ⟨e, he, hv⟩ := List.mem_filterMap.mp hw
      cases e with
      | num n' =>
        have : n' = k := by simpa [numValue] using hv
        subst this
        exact num_mem_getPageNumbers_bounds he
      | ellipsis => simp [numValue] at hv
  · by_cases hb : m.hasNext = true
    · rw [if_pos hb] at hnxt
      have : k = m.page + 1 := by simpa using hnxt
      have := hnext hb
      omega
    · rw [if_neg hb] at hnxt
      exact absurd hnxt (List.not_mem_nil k)

/-- Witness for `handlePageChange_spec` with page 2 of 10 and the value 10
clicked from the window. -/
theorem handlePageChange_spec_witness :
    (handlePageChange { page := 1, ageFilter := none } 2).page = 2 ∧
    (1 ≤ (10 : Int) ∧ (10 : Int) ≤ 10) := by
  have h := handlePageChange_spec { page := 1, ageFilter := none } 2
    { page := 2, limit := 9, total := 90, totalPages := 10,
      hasNext := true, hasPrev := true }
    (by decide) (by decide) (fun _ => by decide) (fun _ => by decide)
  exact ⟨h.1, h.2.2.2 10 (by decide)⟩

/-! ## Theorems: `getUsers` query building -/

theorem mem_appendNumParam {key : String} {o : Option Int} {kv : String × String} :
    kv ∈ appendNumParam key o ↔ ∃ n, o = some n ∧ n ≠ 0 ∧ kv = (key, toString n) := by
  cases o with
  | none => simp [appendNumParam]
  | some n =>
    by_cases h : n = 0
    · simp [appendNumParam, h]
    · simp [appendNumParam, h]

theorem mem_appendStrParam {key : String} {o : Option String} {kv : String × String} :
    kv ∈ appendStrParam key o ↔ ∃ s, o = some s ∧ s ≠ "" ∧ kv = (key, s) := by
  cases o with
  | none => simp [appendStrParam]
  | some s =>
    by_cases h : s = ""
    · simp [appendStrParam, h]
    · simp [appendStrParam, h]

/-- C7: a query-state field that is absent or falsy (zero / empty string)
contributes no key at all to the serialized pairs — in particular an absent age
filter is never serialized as an empty-valued `age=` — while every present
truthy field appears with its value; with all fields absent the URL carries no
query string. -/
theorem getUsers_query_spec (p : UserQueryParams) :
    (∀ v, ("page", v) ∈ queryPairs p ↔ ∃ n, p.page = some n ∧ n ≠ 0 ∧ v = toString n) ∧
    (∀ v, ("limit", v) ∈ queryPairs p ↔ ∃ n, p.limit = some n ∧ n ≠ 0 ∧ v = toString n) ∧
    (∀ v, ("age", v) ∈ queryPairs p ↔ ∃ n, p.age = some n ∧ n ≠ 0 ∧ v = toString n) ∧
    (∀ v, ("sortBy", v) ∈ queryPairs p ↔ p.sortBy = some v ∧ v ≠ "") ∧
    (∀ v, ("sortOrder", v) ∈ queryPairs p ↔ p.sortOrder = some v ∧ v ≠ "") ∧
    (∀ v, ("search", v) ∈ queryPairs p ↔ p.search = some v ∧ v ≠ "") ∧
    getUsersUrl
      { page := none, limit := none, age := none, sortBy := none,
        sortOrder := none, search := none } = "/api/users" := by
  refine ⟨?_, ?_, ?_, ?_, ?_, ?_, by decide⟩ <;>
    intro v <;>
    simp only [queryPairs, List.mem_append, mem_appendNumParam, mem_appendStrParam,
      Prod.mk.injEq] <;>
    constructor
  · rintro ((((((⟨n, h1, h2, h3, h4⟩ | ⟨n, h1, h2, h3, h4⟩) | ⟨n, h1, h2, h3, h4⟩) |
      ⟨s', h1, h2, h3, h4⟩) | ⟨s', h1, h2, h3, h4⟩) | ⟨s', h1, h2, h3, h4⟩)) <;>
      first
        | exact ⟨n, h1, h2, h4⟩
        | exact absurd h3 (by decide)
  · rintro ⟨n, h1, h2, h3⟩
    exact Or.inl (Or.inl (Or.inl (Or.inl (Or.inl ⟨n, h1, h2, trivial, h3⟩))))
  · rintro ((((((⟨n, h1, h2, h3, h4⟩ | ⟨n, h1, h2, h3, h4⟩) | ⟨n, h1, h2, h3, h4⟩) |
      ⟨s', h1, h2, h3, h4⟩) | ⟨s', h1, h2, h3, h4⟩) | ⟨s', h1, h2, h3, h4⟩)) <;>
      first
        | exact ⟨n, h1, h2, h4⟩
        | exact absurd h3 (by decide)
  · rintro ⟨n, h1, h2, h3⟩
    exact Or.inl (Or.inl (Or.inl (Or.inl (Or.inr ⟨n, h1, h2, trivial, h3⟩))))
  · rintro ((((((⟨n, h1, h2, h3, h4⟩ | ⟨n, h1, h2, h3, h4⟩) | ⟨n, h1, h2, h3, h4⟩) |
      ⟨s', h1, h2, h3, h4⟩) | ⟨s', h1, h2, h3, h4⟩) | ⟨s', h1, h2, h3, h4⟩)) <;>
      first
        | exact ⟨n, h1, h2, h4⟩
        | exact absurd h3 (by decide)
  · rintro ⟨n, h1, h2, h3⟩
    exact Or.inl (Or.inl (Or.inl (Or.inr ⟨n, h1, h2, trivial, h3⟩)))
  · rintro ((((((⟨n, h1, h2, h3, h4⟩ | ⟨n, h1, h2, h3, h4⟩) | ⟨n, h1, h2, h3, h4⟩) |
      ⟨s', h1, h2, h3, h4⟩) | ⟨s', h1, h2, h3, h4⟩) | ⟨s', h1, h2, h3, h4⟩)) <;>
      first
        | (subst h4; exact ⟨h1, h2⟩)
        | exact absurd h3 (by decide)
  · rintro ⟨h1, h2⟩
    exact Or.inl (Or.inl (Or.inr ⟨v, h1, h2, trivial, rfl⟩))
  · rintro ((((((⟨n, h1, h2, h3, h4⟩ | ⟨n, h1, h2, h3, h4⟩) | ⟨n, h1, h2, h3, h4⟩) |
      ⟨s', h1, h2, h3, h4⟩) | ⟨s', h1, h2, h3, h4⟩) | ⟨s', h1, h2, h3, h4⟩)) <;>
      first
        | (subst h4; exact ⟨h1, h2⟩)
        | exact absurd h3 (by decide)
  · rintro ⟨h1, h2⟩
    exact Or.inl (Or.inr ⟨v, h1, h2, trivial, rfl⟩)
  · rintro ((((((⟨n, h1, h2, h3, h4⟩ | ⟨n, h1, h2, h3, h4⟩) | ⟨n, h1, h2, h3, h4⟩) |
      ⟨s', h1, h2, h3, h4⟩) | ⟨s', h1, h2, h3, h4⟩) | ⟨s', h1, h2, h3, h4⟩)) <;>
      first
        | (subst h4; exact ⟨h1, h2⟩)
        | exact absurd h3 (by decide)
  · rintro ⟨h1, h2⟩
    exact Or.inr ⟨v, h1, h2, trivial, rfl⟩

/-! ## Theorems: response interceptor -/

/-- C2: for every inbound error response with HTTP status 401: if the request
target is the login or registration endpoint, the storage is untouched, no
redirect is issued, and the normalized error is passed through to the caller;
for any other target the `authToken` and `authUser` keys are removed and a
client-side redirect to the login view is performed. -/
theorem interceptor_401_spec (st : InterceptorStorage) (e : AxiosErrorInput)
    (h401 : e.status = some 401) :
    (isAuthEndpointUrl e.url = true →
        (onResponseError st e).storage = st ∧
        (onResponseError st e).redirect = none ∧
        (onResponseError st e).rejection.status = some 401) ∧
    (isAuthEndpointUrl e.url = false →
        (onResponseError st e).storage.authToken = none ∧
        (onResponseError st e).storage.authUser = none ∧
        (onResponseError st e).redirect = some "/login" ∧
        (onResponseError st e).rejection.status = some 401) := by
  constructor
  · intro hauth
    refine ⟨?_, ?_, ?_⟩ <;> simp [onResponseError, h401, hauth]
  · intro hauth
    refine ⟨?_, ?_, ?_, ?_⟩ <;> simp [onResponseError, h401, hauth]

/-- Witness for `interceptor_401_spec`: a 401 from a login attempt leaves the
stored token in place, issues no redirect, and passes the error through. -/
theorem interceptor_401_spec_witness :
    (onResponseError sampleStorage sampleLoginError).storage = sampleStorage ∧
    (onResponseError sampleStorage sampleLoginError).redirect = none ∧
    (onResponseError sampleStorage sampleLoginError).rejection.status = some 401 :=
  (interceptor_401_spec sampleStorage sampleLoginError rfl).1 (by decide)

/-! ## Theorems: stale-response guard of the keyed query cache -/

theorem cacheLookup_update_self (c : UsersCache) (k : String × UserQueryParams)
    (r : List String) : cacheLookup (cacheUpdate c k r) k = some r := by
  induction c with
  | nil => simp [cacheUpdate, cacheLookup]
  | cons kv rest ih =>
    by_cases h : kv.1 = k
    · simp [cacheUpdate, cacheLookup, h]
    · simp [cacheUpdate, cacheLookup, h, ih]

theorem cacheLookup_update_other (c : UsersCache) (k k' : String × UserQueryParams)
    (r : List String) (h : k' ≠ k) :
    cacheLookup (cacheUpdate c k r) k' = cacheLookup c k' := by
  have hk : ¬ k = k' := Ne.symm h
  induction c with
  | nil => simp [cacheUpdate, cacheLookup, hk]
  | cons kv rest ih =>
    by_cases h1 : kv.1 = k
    · simp [cacheUpdate, cacheLookup, h1, hk]
    · by_cases h2 : kv.1 = k'
      · simp [cacheUpdate, cacheLookup, h1, h2, h]
      · simp [cacheUpdate, cacheLookup, h1, h2, ih]

/-- C9: the query key contains the originating parameters, so the keys of two
requests with different parameters differ; a response is applied only to the
slot of its own originating key, so when request A (params `pA`) resolves
after request B (params `pB`, the current query), the visible state at `pB`
is B's result, never A's, and A's resolution leaves every slot other than its
own unchanged. -/
theorem staleResponse_guard (c : UsersCache) (pA pB : UserQueryParams)
    (rA rB : List String) (hne : pA ≠ pB) :
    usersQueryKey pA ≠ usersQueryKey pB ∧
    visibleUsers (applyResponse (applyResponse c pB rB) pA rA) pB = some rB ∧
    visibleUsers (applyResponse (applyResponse c pB rB) pA rA) pA = some rA ∧
    (∀ q, q ≠ pA → visibleUsers (applyResponse c pA rA) q = visibleUsers c q) := by
  have hkey : usersQueryKey pA ≠ usersQueryKey pB := by
    intro hk
    exact hne (congrArg Prod.snd hk)
  have hother : ∀ (c' : UsersCache) (q q' : UserQueryParams) (r : List String),
      q' ≠ q → visibleUsers (applyResponse c' q r) q' = visibleUsers c' q' := by
    intro c' q q' r hq
    have hkq : usersQueryKey q' ≠ usersQueryKey q := by
      intro hk
      exact hq (congrArg Prod.snd hk)
    exact cacheLookup_update_other c' (usersQueryKey q) (usersQueryKey q') r hkq
  refine ⟨hkey, ?_, cacheLookup_update_self _ _ _, fun q hq => hother _ _ _ _ hq⟩
  rw [hother _ _ _ _ (Ne.symm hne)]
  exact cacheLookup_update_self _ _ _

/-- Witness for `staleResponse_guard`: requests with age filters 20 and 25,
the filter-20 response resolving last, leave the filter-25 slot showing the
filter-25 result. -/
theorem staleResponse_guard_witness :
    visibleUsers
        (applyResponse
          (applyResponse ([] : UsersCache) { age := some 25 } ["bob"])
          { age := some 20 } ["alice"])
        { age := some 25 } = some ["bob"] :=
  (staleResponse_guard ([] : UsersCache) { age := some 20 } { age := some 25 }
    ["alice"] ["bob"] (by decide)).2.1

end FullstackUsersAuth
